import Mathlib

/-!
Shallow embedding of `src/bot.py` (fznrival/Midas).

The embedding follows the source line by line:
* `parse_proxy` (bot.py lines 64-91) — proxy URL parsing,
* `post_request` / `get_request` (lines 118-159) — bounded-retry HTTP layer,
* `get_user_info` / `check_referral_status` / `play_game` (lines 202-269),
* `process_init_data` (lines 271-319) — the per-account pipeline after auth,
* `get_next_reset_time` (lines 321-327) — the daily 08:00 scheduler trigger,
* `main` (lines 348-407) — startup checks and the proxy-rotation cursor.

Python strings are modelled as Lean `String`; the string operations used by
the source (`str.split`, `in`, `str.lower`) are re-implemented over the
underlying `List Char` with structural recursion so that every definition
evaluates inside the kernel.  Network responses are modelled by oracles
(one response per attempt or per call); JSON objects by structures whose
fields are `Option`-valued (`none` = key absent, mirroring `dict.get`
defaults).
-/

namespace Midas

/-! ## Python string primitives (List Char based, all structural) -/

/-- If `sep` is a literal leading marker of `s`, return the remainder of `s`
after it, else `none`.  Helper for the splitter below. -/
def stripSep : List Char → List Char → Option (List Char)
  | [], rest => some rest
  | _ :: _, [] => none
  | p :: ps, c :: cs => if c = p then stripSep ps cs else none

/-- Greedy leftmost split of a character list on a (non-empty) separator,
exactly like Python `str.split(sep)`.  `fuel` is a structural-termination
device; the wrapper `pySplit` passes `fuel = s.length`, which always
suffices because each recursive call strictly shortens the text while the
fuel drops by one. -/
def splitChars (sep : List Char) : Nat → List Char → List (List Char)
  | _, [] => [[]]
  | 0, s => [s]
  | fuel + 1, c :: cs =>
    match stripSep sep (c :: cs) with
    | some rest => [] :: splitChars sep fuel rest
    | none =>
      match splitChars sep fuel cs with
      | [] => [[c]]
      | g :: gs => (c :: g) :: gs

/-- Python `s.split(sep)` for a non-empty separator. -/
def pySplit (s sep : String) : List String :=
  (splitChars sep.data s.data.length s.data).map String.mk

/-- Joining a list of character lists with a single separator character;
the specification-side inverse of `splitChars` on a one-character
separator, used to state what a two-part split means. -/
def joinChars (c : Char) : List (List Char) → List Char
  | [] => []
  | [p] => p
  | p :: ps => p ++ c :: joinChars c ps

/-- Python `sep.join(parts)`. -/
def joinSep (sep : String) : List String → String
  | [] => ""
  | [x] => x
  | x :: xs => x ++ sep ++ joinSep sep xs

/-- Python `s.split(sep, 1)`: at most one split, the remainder keeps any
later separators intact. -/
def py_split1 (s sep : String) : List String :=
  match pySplit s sep with
  | [] => []
  | x :: rest => if rest = [] then [x] else [x, joinSep sep rest]

/-- Python `s.lower()` (ASCII, which is all the source ever feeds it). -/
def py_lower (s : String) : String := String.mk (s.data.map Char.toLower)

/-! ## parse_proxy (bot.py lines 64-91) -/

/-- Characters CPython's `urlparse` accepts inside a URL scheme. -/
def scheme_char (c : Char) : Bool :=
  c.isAlphanum || c == '+' || c == '-' || c == '.'

/-- `urlparse(url).scheme` as computed by CPython `urlsplit`: the text
before the first `:`, provided it is non-empty, starts with an ASCII
letter and consists of scheme characters; lower-cased.  Otherwise `""`.
(Only the scheme of `urlparse`'s result is read by the source, line 70.) -/
def urlparse_scheme (url : String) : String :=
  match pySplit url ":" with
  | pre :: _ :: _ =>
    if !pre.data.isEmpty && pre.data.all scheme_char &&
        (match pre.data.head? with | some c => c.isAlpha | none => false) then
      py_lower pre
    else ""
  | _ => ""

/-- Lines 71-76 of bot.py: split off the credential section and the
`host:port` section.  Python indexes `split('://', 1)[1]` in both the
`'@' in proxy_string` branch and the other one, so an input without
`://` raises `IndexError` in either branch (→ `None` via the outer
`except`); a credential section without exactly one `@` or exactly one
`:` raises `ValueError` on tuple unpacking (→ `None`).  The `'@'` test
is hoisted past the (side-effect free, identical) `split('://', 1)`
call; the branch structure is otherwise that of the source. -/
def parse_proxy_split (proxy_string : String) :
    Option (Option (String × String) × String) :=
  match py_split1 proxy_string "://" with
  | [_, after] =>
    if proxy_string.data.contains '@' then
      match pySplit after "@" with
      | [auth, host_port] =>
        match pySplit auth ":" with
        | [username, password] => some (some (username, password), host_port)
        | _ => none
      | _ => none
    else some (none, after)
  | _ => none

/-- Lines 77-81 of bot.py: split `host:port`, or default the port by
scheme (80 for `http`, 443 otherwise).  A `host_port` with two or more
`:` raises `ValueError` on unpacking (→ `None`). -/
def parse_proxy_hostport (protocol host_port : String) :
    Option (String × String) :=
  if host_port.data.contains ':' then
    match pySplit host_port ":" with
    | [host, port] => some (host, port)
    | _ => none
  else
    some (host_port, if protocol = "http" then "80" else "443")

/-- Lines 82-87 of bot.py: rebuild the proxy URL.  Credentials are kept
only when `username and password` is truthy in Python, i.e. both strings
are non-empty; otherwise the plain `protocol://host:port` form is built
(an incomplete credential pair is silently dropped). -/
def build_proxy_url (protocol : String) (creds : Option (String × String))
    (host port : String) : String :=
  match creds with
  | some (username, password) =>
    if username ≠ "" ∧ password ≠ "" then
      protocol ++ "://" ++ username ++ ":" ++ password ++ "@" ++ host ++ ":" ++ port
    else
      protocol ++ "://" ++ host ++ ":" ++ port
  | none => protocol ++ "://" ++ host ++ ":" ++ port

/-- `parse_proxy` (bot.py lines 64-91).  The Python function returns the
one-entry dict `{protocol: proxy_url}`, modelled as the pair
`(protocol, proxy_url)`; every exception inside the body is caught and
turned into `None` (`none` here).  An empty input string is falsy and
returns `None` at line 67-68.  (CPython's `urlparse` can itself raise on
a malformed IPv6 bracket netloc, which only turns further inputs into
`None`; no input considered by the spec contains brackets.) -/
def parse_proxy (proxy_string : String) : Option (String × String) :=
  if proxy_string.data.isEmpty then none
  else
    let protocol := urlparse_scheme proxy_string
    match parse_proxy_split proxy_string with
    | none => none
    | some (creds, host_port) =>
      match parse_proxy_hostport protocol host_port with
      | none => none
      | some (host, port) =>
        some (protocol, build_proxy_url protocol creds host port)

/-! ## HTTP execution layer (bot.py lines 118-159) -/

/-- Outcome of one transport attempt, as seen by `post_request` /
`get_request`.  `transportError` covers everything the outer
`except Exception` catches: scraper-creation failure, connection errors
and `raise_for_status` on a non-2xx response.  `success` carries the
response body's JSON parse (`json = none` when `response.json()` raises
`ValueError`), its raw text, and its cookie jar. -/
inductive Attempt (J C : Type) where
  | transportError
  | success (json : Option J) (text : String) (cookies : C)

/-- Observable trace of one `post_request`/`get_request` call: the value
returned past the function boundary, the number of transport attempts
issued, and the list of `time.sleep` durations performed between
consecutive attempts. -/
structure ReqTrace (α : Type) where
  result : α
  attempts : Nat
  sleeps : List Nat
  deriving DecidableEq

/-- `config.getint('settings', 'max_retries', fallback=3)` (bot.py line 38):
the default retry bound. -/
def MAX_RETRIES : Nat := 3

/-- `post_request` (bot.py lines 118-137).  The transport oracle gives the
outcome of the attempt made at recursion depth `retries`.  On a transport
error with `retries < maxRetries` the function sleeps 5 seconds and
recurses with `retries + 1`; past the bound it returns the sentinel
`None, None` (modelled as `none`).  On success it returns
`(response.json(), cookies)`, falling back to `(response.text, cookies)`
when the body is not JSON.  No exception escapes: the function is total. -/
def post_request {J C : Type} (maxRetries : Nat) (oracle : Nat → Attempt J C)
    (retries : Nat) : ReqTrace (Option ((J ⊕ String) × C)) :=
  match oracle retries with
  | .transportError =>
    if h : retries < maxRetries then
      let r := post_request maxRetries oracle (retries + 1)
      { result := r.result, attempts := r.attempts + 1, sleeps := 5 :: r.sleeps }
    else
      { result := none, attempts := 1, sleeps := [] }
  | .success json text cookies =>
    { result := some ((match json with
        | some v => Sum.inl v
        | none => Sum.inr text), cookies),
      attempts := 1, sleeps := [] }
termination_by maxRetries - retries
decreasing_by omega

/-- `get_request` (bot.py lines 139-159).  Same retry discipline as
`post_request`; on a 2xx response whose body fails to parse as JSON it
returns `None` immediately (lines 149-151) — the parse failure consumes
no retry. -/
def get_request {J C : Type} (maxRetries : Nat) (oracle : Nat → Attempt J C)
    (retries : Nat) : ReqTrace (Option J) :=
  match oracle retries with
  | .transportError =>
    if h : retries < maxRetries then
      let r := get_request maxRetries oracle (retries + 1)
      { result := r.result, attempts := r.attempts + 1, sleeps := 5 :: r.sleeps }
    else
      { result := none, attempts := 1, sleeps := [] }
  | .success json _text _cookies =>
    { result := json, attempts := 1, sleeps := [] }
termination_by maxRetries - retries
decreasing_by omega

/-! ## Account pipeline responses (bot.py lines 202-269, 307-315) -/

/-- Body of `GET /api/referral/status`; `canClaim` absent defaults to
`False` (line 232). -/
structure RefStatus where
  canClaim : Option Bool
  deriving DecidableEq

/-- Body of `POST /api/referral/claim`; both fields default to `0`
(lines 237-238). -/
structure RefClaim where
  totalPoints : Option Int
  totalTickets : Option Int
  deriving DecidableEq

/-- Body of `GET /api/user`; `tickets` defaults to `0` (line 211), a
missing `points` key yields the placeholder `"Not found"` (line 210). -/
structure UserData where
  tickets : Option Int
  points : Option Int
  deriving DecidableEq

/-- Body of `POST /api/game/play`; `points` defaults to `0` (line 262). -/
structure GameData where
  points : Option Int
  deriving DecidableEq

/-- `get_user_info` (bot.py lines 202-224).  `user_data = none` models a
falsy result of the `GET /api/user` call (the `None` sentinel, an empty
JSON object or an empty JSON string, all of which take the `else`
branch of `if user_data:`); then the function returns `0, 0`.
`some (Sum.inr t)` models a truthy body that is not a JSON object (for
a GET, a JSON-encoded string): `user_data.get(...)` at line 207 then
raises `AttributeError`, which the function does not catch — modelled
as `Except.error`.  On a JSON object it returns `(tickets, points)`
where a missing `points` key makes the second component the literal
`"Not found"` (the `Sum.inr` arm). -/
def get_user_info (user_data : Option (UserData ⊕ String)) :
    Except String (Int × (Int ⊕ String)) :=
  match user_data with
  | some (Sum.inl u) =>
    Except.ok
      (u.tickets.getD 0,
       match u.points with
       | some p => Sum.inl p
       | none => Sum.inr "Not found")
  | some (Sum.inr _) => Except.error "AttributeError"
  | none => Except.ok (0, Sum.inl 0)

/-- `check_referral_status` (bot.py lines 226-249).  `referral_data`
models the `GET /api/referral/status` result, `claim_response` the
`POST /api/referral/claim` result (issued only when `canClaim` is
truthy).  In both, `none` is a falsy body (the sentinel, `{}` or an
empty string) and `Sum.inr` a truthy body that is not a JSON object —
for the POST this is exactly `post_request`'s raw-text fallback (see
`parse_fallback`).  On such a body the `.get` call (line 232 for the
status, line 237 for the claim) raises `AttributeError`, which escapes
this function — modelled as `Except.error`.  Every handled failure
path returns `(0, 0)`. -/
def check_referral_status (referral_data : Option (RefStatus ⊕ String))
    (claim_response : Option (RefClaim ⊕ String)) : Except String (Int × Int) :=
  match referral_data with
  | some (Sum.inl rd) =>
    if rd.canClaim.getD false then
      match claim_response with
      | some (Sum.inl cr) => Except.ok (cr.totalPoints.getD 0, cr.totalTickets.getD 0)
      | some (Sum.inr _) => Except.error "AttributeError"
      | none => Except.ok (0, 0)
    else Except.ok (0, 0)
  | some (Sum.inr _) => Except.error "AttributeError"
  | none => Except.ok (0, 0)

/-! ## Play loop (bot.py lines 251-269) -/

/-- Final state of the `while tickets > 0` loop in `play_game`:
`total` is the `total_points` accumulator (the function's return value),
`remaining` the value of the `tickets` local when the loop exits, and
`calls` the number of `POST /api/game/play` calls issued (each a full
`post_request`, whose internal retries are already exhausted when the
sentinel comes back). -/
structure PlayResult where
  total : Int
  remaining : Int
  calls : Nat
  deriving DecidableEq

/-- Body of `play_game` (bot.py lines 255-268).  `oracle call` is the
truthy-or-falsy result of the `call`-th play `post_request`: `some gd`
for a non-empty JSON object, `none` for the `None` sentinel (or a falsy
body).  On success the loop adds `gd.points` (default 0) and decrements
`tickets`; on failure it breaks — leaving `tickets` undecremented.
`fuel` is a structural-termination device; the wrapper passes
`tickets.toNat`, which suffices since `tickets` drops by one per
iteration, so the `fuel = 0` arm is unreachable from `play_game_state`
(it is given the break-like result to keep the definition total). -/
def play_game_go (oracle : Nat → Option GameData) :
    Nat → Int → Int → Nat → PlayResult
  | fuel, tickets, total_points, call =>
    if tickets > 0 then
      match oracle call with
      | some game_data =>
        match fuel with
        | fuel' + 1 =>
          let r := play_game_go oracle fuel' (tickets - 1)
            (total_points + game_data.points.getD 0) (call + 1)
          { r with calls := r.calls + 1 }
        | 0 => { total := total_points, remaining := tickets, calls := 1 }
      | none => { total := total_points, remaining := tickets, calls := 1 }
    else
      { total := total_points, remaining := tickets, calls := 0 }

/-- `play_game`'s loop run from the initial state
(`total_points = 0`, first play call indexed 0). -/
def play_game_state (oracle : Nat → Option GameData) (tickets : Int) :
    PlayResult :=
  play_game_go oracle tickets.toNat tickets 0 0

/-- `play_game` (bot.py lines 251-269) returns `total_points`. -/
def play_game (oracle : Nat → Option GameData) (tickets : Int) : Int :=
  (play_game_state oracle tickets).total

/-! ## Per-account pipeline after authentication (bot.py lines 307-315) -/

/-- The responses one account's post-auth steps can observe: the referral
status and referral claim bodies, the user-info body, and the play-call
oracle.  The streak step (line 308) is omitted: it produces no value any
later step consumes, and although it too can raise (and then abort the
pipeline with zero play calls via line 316), every statement below holds
the streak responses fixed across the runs it compares, so the omission
assumes only that the compared runs agree on the streak outcome — which
they do by construction.  Field values that are JSON numbers are
modelled as integers or absent, per the API schema; a play response that
is raw text would abort the loop at the same call index the `none` break
does, so the play oracle keeps its two-valued form. -/
structure Env where
  referralStatus : Option (RefStatus ⊕ String)
  referralClaim : Option (RefClaim ⊕ String)
  userInfo : Option (UserData ⊕ String)
  play : Nat → Option GameData

/-- Lines 307-317 of `process_init_data`: the steps run inside one
`try`.  The return value of `check_referral_status` is discarded when it
returns normally (line 309 binds nothing), but an exception it raises is
caught by the `except Exception` at line 316, skipping `get_user_info`
and the play loop entirely (zero play calls).  The same handler guards
`get_user_info`.  When both steps return, the ticket count from
`get_user_info` alone decides whether and how long `play_game` runs.
Returns the ticket count seen (0 when the pipeline aborts before the
fetch) and the play-loop result (a zero-call result when no play
happens). -/
def process_init_data_post_auth (env : Env) : Int × PlayResult :=
  match check_referral_status env.referralStatus env.referralClaim with
  | Except.error _ => (0, { total := 0, remaining := 0, calls := 0 })
  | Except.ok _referral =>
    match get_user_info env.userInfo with
    | Except.error _ => (0, { total := 0, remaining := 0, calls := 0 })
    | Except.ok ti =>
      let tickets := ti.1
      if tickets > 0 then (tickets, play_game_state env.play tickets)
      else (tickets, { total := 0, remaining := tickets, calls := 0 })

/-! ## Daily scheduler (bot.py lines 321-327) -/

/-- `get_next_reset_time`, with WIB wall-clock instants modelled as
seconds (the function zeroes `second` and `microsecond`, so full-second
inputs stay exact).  `now.replace(hour=8, minute=0, second=0,
microsecond=0)` is `now / 86400 * 86400 + 8 * 3600`; if `now >=
next_reset` the reset moves one day later.  WIB (`Asia/Jakarta`) has a
fixed UTC offset and no DST, and the function never leaves that zone, so
wall-clock arithmetic is exact. -/
def get_next_reset_time (now : Nat) : Nat :=
  let next_reset := now / 86400 * 86400 + 8 * 3600
  if next_reset ≤ now then next_reset + 86400 else next_reset

/-! ## Startup checks and proxy rotation (bot.py lines 348-407) -/

/-- Startup of `main` (bot.py lines 365-380), from the loaded credential
and proxy lists.  Returns the list of proxies probed by the
`get_ip_info` startup loop (the only network calls before the cycle
loop) paired with `some exitCode` when the process terminates during
startup.  An empty credential list or an empty proxy list is falsy and
hits a bare `return` (lines 369-374), ending the interpreter with exit
status 0 before the probe loop runs. -/
def main_startup (init_data_list proxy_list : List String) :
    List String × Option Nat :=
  if init_data_list.isEmpty then ([], some 0)
  else if proxy_list.isEmpty then ([], some 0)
  else (proxy_list, none)

/-- Exit status of the `KeyboardInterrupt` handlers (bot.py lines 346 and
407): both call `exit(0)`. -/
def interrupt_exit_code : Nat := 0

/-- The proxy indices assigned to successive accounts within one cycle
(bot.py lines 391-398): the cursor starts at the given value, each
account is assigned the current cursor (`process_init_data` reads
`PROXY_LIST[proxy_index]`, line 274) and the cursor then advances by
`(proxy_index + 1) % len(PROXY_LIST)`. -/
def cycle_proxy_indices (poolSize : Nat) : Nat → Nat → List Nat
  | _cursor, 0 => []
  | cursor, numAccounts + 1 =>
    cursor :: cycle_proxy_indices poolSize ((cursor + 1) % poolSize) numAccounts

/-! ## Character-level facts about the parsing helpers

These lemmas characterise `pySplit` outputs (a two-part split on a
one-character separator decomposes the input and neither part contains
the separator; every character of a part is a character of the input)
and the characters `urlparse_scheme` can emit.  They drive the
both-credentials-or-neither invariant of `parse_proxy`. -/

theorem splitChars_ne_nil (sep : List Char) (fuel : Nat) (s : List Char) :
    splitChars sep fuel s ≠ [] := by
  match fuel, s with
  | _, [] => simp [splitChars]
  | 0, a :: as => simp [splitChars]
  | f + 1, a :: as =>
    simp only [splitChars]
    rcases stripSep sep (a :: as) with _ | rest
    · rcases splitChars sep f as with _ | ⟨g, gs⟩ <;> simp
    · simp

theorem stripSep_chars : ∀ (sep s rest : List Char), stripSep sep s = some rest →
    ∀ a ∈ rest, a ∈ s := by
  intro sep
  induction sep with
  | nil =>
    intro s rest h a ha
    simp [stripSep] at h
    subst h
    exact ha
  | cons p ps ih =>
    intro s rest h a ha
    cases s with
    | nil => simp [stripSep] at h
    | cons b bs =>
      simp only [stripSep] at h
      split at h
      · exact List.mem_cons_of_mem _ (ih bs rest h a ha)
      · cases h

theorem splitChars_chars (sep : List Char) : ∀ (fuel : Nat) (s p : List Char),
    p ∈ splitChars sep fuel s → ∀ a ∈ p, a ∈ s := by
  intro fuel
  induction fuel with
  | zero =>
    intro s p hp a ha
    cases s with
    | nil =>
      simp [splitChars] at hp
      subst hp
      simp at ha
    | cons b bs =>
      simp [splitChars] at hp
      subst hp
      exact ha
  | succ f ih =>
    intro s p hp a ha
    cases s with
    | nil =>
      simp [splitChars] at hp
      subst hp
      simp at ha
    | cons b bs =>
      simp only [splitChars] at hp
      cases hss : stripSep sep (b :: bs) with
      | some rest =>
        rw [hss] at hp
        simp at hp
        rcases hp with rfl | hp
        · simp at ha
        · exact stripSep_chars sep _ rest hss a (ih rest p hp a ha)
      | none =>
        rw [hss] at hp
        cases hin : splitChars sep f bs with
        | nil =>
          rw [hin] at hp
          simp at hp
          subst hp
          simp at ha
          subst ha
          exact List.mem_cons_self _ _
        | cons g gs =>
          rw [hin] at hp
          simp at hp
          rcases hp with rfl | hp
          · rcases List.mem_cons.mp ha with rfl | hag
            · exact List.mem_cons_self a bs
            · have hg : g ∈ splitChars sep f bs := by rw [hin]; exact List.mem_cons_self g gs
              exact List.mem_cons_of_mem _ (ih bs g hg a hag)
          · have hpm : p ∈ splitChars sep f bs := by rw [hin]; exact List.mem_cons_of_mem _ hp
            exact List.mem_cons_of_mem _ (ih bs p hpm a ha)

theorem joinChars_cons_cons (c a : Char) (g : List Char) (gs : List (List Char)) :
    joinChars c ((a :: g) :: gs) = a :: joinChars c (g :: gs) := by
  cases gs <;> rfl

theorem splitChars_single (c : Char) : ∀ (fuel : Nat) (s : List Char), s.length ≤ fuel →
    joinChars c (splitChars [c] fuel s) = s ∧
    ∀ p ∈ splitChars [c] fuel s, c ∉ p := by
  intro fuel
  induction fuel with
  | zero =>
    intro s hs
    have hnil : s = [] := by cases s with
      | nil => rfl
      | cons a as => simp at hs
    subst hnil
    refine ⟨rfl, ?_⟩
    intro p hp
    simp [splitChars] at hp
    subst hp
    simp
  | succ f ih =>
    intro s hs
    cases s with
    | nil =>
      refine ⟨rfl, ?_⟩
      intro p hp
      simp [splitChars] at hp
      subst hp
      simp
    | cons a as =>
      by_cases hac : a = c
      · subst hac
        have hstrip : stripSep [a] (a :: as) = some as := by simp [stripSep]
        have hstep : splitChars [a] (f + 1) (a :: as) = [] :: splitChars [a] f as := by
          simp only [splitChars, hstrip]
        obtain ⟨hjoin, hfree⟩ := ih as (by simpa using hs)
        rcases hparts : splitChars [a] f as with _ | ⟨q, qs⟩
        · exact absurd hparts (splitChars_ne_nil _ _ _)
        · rw [hparts] at hjoin hfree
          constructor
          · rw [hstep, hparts]
            show ([] : List Char) ++ a :: joinChars a (q :: qs) = a :: as
            simp [hjoin]
          · intro p hp
            rw [hstep, hparts] at hp
            rcases List.mem_cons.mp hp with rfl | hp2
            · simp
            · exact hfree p hp2
      · have hstrip : stripSep [c] (a :: as) = none := by simp [stripSep, hac]
        have hstep0 : splitChars [c] (f + 1) (a :: as) =
            match splitChars [c] f as with
            | [] => [[a]]
            | g :: gs => (a :: g) :: gs := by
          simp only [splitChars, hstrip]
        obtain ⟨hjoin, hfree⟩ := ih as (by simpa using hs)
        rcases hparts : splitChars [c] f as with _ | ⟨g, gs⟩
        · exact absurd hparts (splitChars_ne_nil _ _ _)
        · rw [hparts] at hjoin hfree hstep0
          constructor
          · rw [hstep0, joinChars_cons_cons, hjoin]
          · intro p hp
            rw [hstep0] at hp
            rcases List.mem_cons.mp hp with rfl | hp2
            · intro hcm
              rcases List.mem_cons.mp hcm with heq | hcg
              · exact hac heq.symm
              · exact hfree g (List.mem_cons_self _ _) hcg
            · exact hfree p (List.mem_cons_of_mem _ hp2)

theorem pySplit_chars (s sep p : String) (hp : p ∈ pySplit s sep) :
    ∀ a ∈ p.data, a ∈ s.data := by
  unfold pySplit at hp
  simp only [List.mem_map] at hp
  obtain ⟨l, hl, rfl⟩ := hp
  intro a ha
  exact splitChars_chars sep.data _ s.data l hl a ha

theorem pySplit_pair (sep : String) (c : Char) (hsep : sep.data = [c]) (s a b : String)
    (h : pySplit s sep = [a, b]) :
    s.data = a.data ++ c :: b.data ∧ c ∉ a.data ∧ c ∉ b.data := by
  unfold pySplit at h
  rw [hsep] at h
  have hspec := splitChars_single c s.data.length s.data (le_refl _)
  rcases hps : splitChars [c] s.data.length s.data with _ | ⟨p1, rest⟩
  · rw [hps] at h; simp at h
  · rcases rest with _ | ⟨p2, rest2⟩
    · rw [hps] at h; simp at h
    · rcases rest2 with _ | ⟨p3, rest3⟩
      · rw [hps] at h
        simp only [List.map, List.cons.injEq, and_true] at h
        obtain ⟨ha, hb⟩ := h
        rw [hps] at hspec
        obtain ⟨hjoin, hfree⟩ := hspec
        have hda : a.data = p1 := by rw [← ha]
        have hdb : b.data = p2 := by rw [← hb]
        refine ⟨?_, ?_, ?_⟩
        · rw [hda, hdb, ← hjoin]
          rfl
        · rw [hda]; exact hfree p1 (by simp)
        · rw [hdb]; exact hfree p2 (by simp)
      · rw [hps] at h; simp at h

theorem joinSep_chars (sep : String) : ∀ (parts : List String) (a : Char),
    a ∈ (joinSep sep parts).data → a ∈ sep.data ∨ ∃ p ∈ parts, a ∈ p.data := by
  intro parts
  induction parts with
  | nil =>
    intro a ha
    simp [joinSep] at ha
  | cons x xs ih =>
    intro a ha
    cases xs with
    | nil =>
      right
      exact ⟨x, by simp, ha⟩
    | cons y ys =>
      have hj : joinSep sep (x :: y :: ys) = x ++ sep ++ joinSep sep (y :: ys) := rfl
      rw [hj, String.data_append, String.data_append] at ha
      rcases List.mem_append.mp ha with hxy | hrest
      · rcases List.mem_append.mp hxy with hx | hs
        · exact Or.inr ⟨x, by simp, hx⟩
        · exact Or.inl hs
      · rcases ih a hrest with hs | ⟨p, hp, hpa⟩
        · exact Or.inl hs
        · exact Or.inr ⟨p, List.mem_cons_of_mem _ hp, hpa⟩

theorem char_ofNat_toNat_valid (n : Nat) (h : n.isValidChar) :
    (Char.ofNat n).toNat = n := by
  simp [Char.ofNat, dif_pos h, Char.ofNatAux, Char.toNat, UInt32.toNat]

theorem scheme_char_toLower (c : Char) (hc : scheme_char c = true) :
    c.toLower ≠ ':' ∧ c.toLower ≠ '@' := by
  unfold Char.toLower
  by_cases h : c.toNat ≥ 65 ∧ c.toNat ≤ 90
  · simp only [if_pos h]
    have hv : (c.toNat + 32).isValidChar := Or.inl (by omega)
    have ht : (Char.ofNat (c.toNat + 32)).toNat = c.toNat + 32 := char_ofNat_toNat_valid _ hv
    constructor <;> intro heq <;> rw [heq] at ht
    · have h58 : (':' : Char).toNat = 58 := rfl
      omega
    · have h64 : ('@' : Char).toNat = 64 := rfl
      omega
  · simp only [if_neg h]
    constructor <;> intro heq <;> subst heq <;>
      simp [scheme_char, Char.isAlphanum, Char.isAlpha, Char.isDigit, Char.isUpper,
        Char.isLower] at hc

theorem urlparse_scheme_cases (s : String) :
    urlparse_scheme s = "" ∨
    ∃ pre, urlparse_scheme s = py_lower pre ∧ pre.data.all scheme_char = true := by
  unfold urlparse_scheme
  rcases pySplit s ":" with _ | ⟨pre, rest⟩
  · exact Or.inl rfl
  · rcases rest with _ | ⟨q, qs⟩
    · exact Or.inl rfl
    · by_cases hcond : (!pre.data.isEmpty && pre.data.all scheme_char &&
          (match pre.data.head? with | some c => c.isAlpha | none => false)) = true
      · refine Or.inr ⟨pre, ?_, ?_⟩
        · simp only [if_pos hcond]
        · simp only [Bool.and_eq_true] at hcond
          exact hcond.1.2
      · left
        simp only [if_neg hcond]

theorem urlparse_scheme_free (s : String) :
    ':' ∉ (urlparse_scheme s).data ∧ '@' ∉ (urlparse_scheme s).data := by
  rcases urlparse_scheme_cases s with h | ⟨pre, heq, hall⟩
  · rw [h]
    exact ⟨by simp, by simp⟩
  · rw [heq]
    have hdata : (py_lower pre).data = pre.data.map Char.toLower := rfl
    rw [hdata]
    constructor <;> intro hmem <;> simp only [List.mem_map] at hmem
    · obtain ⟨c0, hc0, hlow⟩ := hmem
      exact (scheme_char_toLower c0 (List.all_eq_true.mp hall c0 hc0)).1 hlow
    · obtain ⟨c0, hc0, hlow⟩ := hmem
      exact (scheme_char_toLower c0 (List.all_eq_true.mp hall c0 hc0)).2 hlow

theorem py_split1_after (s x after : String) (h : py_split1 s "://" = [x, after])
    (hs : '@' ∉ s.data) : '@' ∉ after.data := by
  unfold py_split1 at h
  split at h
  · simp at h
  · rename_i y rest hps
    split at h
    · simp at h
    · simp only [List.cons.injEq, and_true] at h
      obtain ⟨-, hafter⟩ := h
      intro hmem
      rw [← hafter] at hmem
      rcases joinSep_chars "://" rest '@' hmem with hsep | ⟨p, hp, hpa⟩
      · simp at hsep
      · have hpm : p ∈ pySplit s "://" := by
          rw [hps]; exact List.mem_cons_of_mem _ hp
        exact hs (pySplit_chars s "://" p hpm '@' hpa)

theorem parse_proxy_split_inv (s : String) (creds : Option (String × String))
    (host_port : String) (h : parse_proxy_split s = some (creds, host_port)) :
    '@' ∉ host_port.data ∧
    (creds = none ∨ ∃ u pw, creds = some (u, pw) ∧
       ':' ∉ u.data ∧ ':' ∉ pw.data ∧ '@' ∉ u.data ∧ '@' ∉ pw.data) := by
  unfold parse_proxy_split at h
  split at h
  · rename_i xs x after hps
    split at h
    · rename_i hat
      split at h
      · rename_i ys auth hp1 hpa
        split at h
        · rename_i zs u pw hpc
          simp only [Option.some.injEq, Prod.mk.injEq] at h
          obtain ⟨hcr, hhp⟩ := h
          obtain ⟨hsplit, hana, hhpna⟩ := pySplit_pair "@" '@' rfl after auth hp1 hpa
          obtain ⟨hauth, huc, hpwc⟩ := pySplit_pair ":" ':' rfl auth u pw hpc
          subst hhp
          refine ⟨hhpna, Or.inr ⟨u, pw, hcr.symm, huc, hpwc, ?_, ?_⟩⟩
          · intro hm
            exact hana (by rw [hauth]; exact List.mem_append_left _ hm)
          · intro hm
            exact hana (by
              rw [hauth]
              exact List.mem_append_right _ (List.mem_cons_of_mem _ hm))
        · simp at h
      · simp at h
    · rename_i hat
      simp only [Option.some.injEq, Prod.mk.injEq] at h
      obtain ⟨hcr, hhp⟩ := h
      have hsfree : '@' ∉ s.data := fun hm => hat (by simpa using hm)
      subst hhp
      exact ⟨py_split1_after s x after hps hsfree, Or.inl hcr.symm⟩
  · simp at h

theorem parse_proxy_hostport_inv (protocol host_port host port : String)
    (h : parse_proxy_hostport protocol host_port = some (host, port))
    (hfree : '@' ∉ host_port.data) :
    ':' ∉ host.data ∧ ':' ∉ port.data ∧ '@' ∉ host.data ∧ '@' ∉ port.data := by
  unfold parse_proxy_hostport at h
  split at h
  · rename_i hcol
    split at h
    · rename_i xs h2 p2 hpc
      simp only [Option.some.injEq, Prod.mk.injEq] at h
      obtain ⟨hh, hp⟩ := h
      subst hh
      subst hp
      obtain ⟨hsplit, hhc, hpc2⟩ := pySplit_pair ":" ':' rfl host_port h2 p2 hpc
      refine ⟨hhc, hpc2, ?_, ?_⟩
      · intro hm
        exact hfree (by rw [hsplit]; exact List.mem_append_left _ hm)
      · intro hm
        exact hfree (by
          rw [hsplit]
          exact List.mem_append_right _ (List.mem_cons_of_mem _ hm))
    · simp at h
  · rename_i hcol
    simp only [Option.some.injEq, Prod.mk.injEq] at h
    obtain ⟨hh, hp⟩ := h
    subst hh
    have hhc : ':' ∉ host_port.data := fun hm => hcol (by simpa using hm)
    rw [← hp]
    by_cases hproto : protocol = "http"
    · rw [if_pos hproto]
      exact ⟨hhc, by decide, hfree, by decide⟩
    · rw [if_neg hproto]
      exact ⟨hhc, by decide, hfree, by decide⟩

theorem at_free_plain (protocol host port : String) (h1 : '@' ∉ protocol.data)
    (h2 : '@' ∉ host.data) (h3 : '@' ∉ port.data) :
    '@' ∉ (protocol ++ "://" ++ host ++ ":" ++ port).data := by
  intro hm
  simp only [String.data_append, List.mem_append] at hm
  rcases hm with (((hp | hs) | hh) | hc) | hpo
  · exact h1 hp
  · simp at hs
  · exact h2 hh
  · simp at hc
  · exact h3 hpo

/-! ## Claim theorems -/

/-- C1: for `MAX_RETRIES = 3`, if every attempted transport call fails
permanently then `post_request` (and likewise `get_request`) performs
exactly 4 attempts (1 initial + 3 retries) with a fixed 5-second sleep
between consecutive attempts, and then returns the no-result sentinel
(`None` for GET, `None, None` for POST, both modelled `none`).  The
functions are total, so nothing is raised past the boundary. -/
theorem retry_bound {J C : Type} (oracle : Nat → Attempt J C)
    (hfail : ∀ k, oracle k = Attempt.transportError) :
    post_request 3 oracle 0 = { result := none, attempts := 4, sleeps := [5, 5, 5] } ∧
    get_request 3 oracle 0 = { result := none, attempts := 4, sleeps := [5, 5, 5] } := by
  constructor <;> simp [post_request, get_request, hfail]

/-- Witness for C1 at the everywhere-failing oracle. -/
theorem retry_bound_witness :
    post_request 3 (fun _ => (Attempt.transportError : Attempt Nat Nat)) 0 =
      { result := none, attempts := 4, sleeps := [5, 5, 5] } ∧
    get_request 3 (fun _ => (Attempt.transportError : Attempt Nat Nat)) 0 =
      { result := none, attempts := 4, sleeps := [5, 5, 5] } :=
  retry_bound (fun _ => Attempt.transportError) (fun _ => rfl)

/-- C2: with 3 tickets and the play endpoint returning points 2, 5, 1 on
the three successive calls, `play_game` returns 8 total points and the
loop's ticket counter is 0 on exit. -/
theorem play_loop_total (oracle : Nat → Option GameData)
    (h0 : oracle 0 = some ⟨some 2⟩) (h1 : oracle 1 = some ⟨some 5⟩)
    (h2 : oracle 2 = some ⟨some 1⟩) :
    play_game oracle 3 = 8 ∧ (play_game_state oracle 3).remaining = 0 := by
  simp [play_game, play_game_state, play_game_go, h0, h1, h2]

/-- Witness for C2 at a concrete three-response oracle. -/
theorem play_loop_total_witness :
    play_game (fun n => [(⟨some 2⟩ : GameData), ⟨some 5⟩, ⟨some 1⟩].get? n) 3 = 8 ∧
    (play_game_state (fun n => [(⟨some 2⟩ : GameData), ⟨some 5⟩, ⟨some 1⟩].get? n) 3).remaining
      = 0 :=
  play_loop_total _ rfl rfl rfl

/-- C3 counterexample: with 3 tickets, first play call succeeding with 2
points and the second failing, the `tickets` local is 2 when the loop
breaks (the failed call does not decrement it), not 1 as the claim
states. -/
theorem play_loop_early_stop_cex :
    (play_game_state (fun n => if n = 0 then some ⟨some 2⟩ else none) 3).total = 2 ∧
    (play_game_state (fun n => if n = 0 then some ⟨some 2⟩ else none) 3).remaining = 2 ∧
    ¬ (play_game_state (fun n => if n = 0 then some ⟨some 2⟩ else none) 3).remaining = 1 := by
  decide

/-- C3 (amended): with 3 tickets, a first play call succeeding with 2
points and the second yielding no result, the loop terminates early
after 2 calls with accumulated points 2 and the ticket counter still at
2 — only successful calls decrement it. -/
theorem play_loop_early_stop (oracle : Nat → Option GameData)
    (h0 : oracle 0 = some ⟨some 2⟩) (h1 : oracle 1 = none) :
    play_game oracle 3 = 2 ∧ (play_game_state oracle 3).remaining = 2 ∧
    (play_game_state oracle 3).calls = 2 := by
  simp [play_game, play_game_state, play_game_go, h0, h1]

/-- Witness for C3's amended theorem at a concrete oracle. -/
theorem play_loop_early_stop_witness :
    play_game (fun n => if n = 0 then some ⟨some 2⟩ else none) 3 = 2 ∧
    (play_game_state (fun n => if n = 0 then some ⟨some 2⟩ else none) 3).remaining = 2 ∧
    (play_game_state (fun n => if n = 0 then some ⟨some 2⟩ else none) 3).calls = 2 :=
  play_loop_early_stop _ rfl rfl

/-- C4: on any day `d`, at 07:59 local (second 28740) the next trigger is
today 08:00 (second 28800 of day `d`); at 08:01 (second 28860) it is
tomorrow 08:00 — the next future occurrence of the fixed 08:00 local
time-of-day. -/
theorem scheduler_next_trigger (d : Nat) :
    get_next_reset_time (86400 * d + 28740) = 86400 * d + 28800 ∧
    get_next_reset_time (86400 * d + 28860) = 86400 * (d + 1) + 28800 := by
  have h1 : (86400 * d + 28740) / 86400 = d := by
    rw [Nat.mul_add_div (by norm_num)]
    norm_num
  have h2 : (86400 * d + 28860) / 86400 = d := by
    rw [Nat.mul_add_div (by norm_num)]
    norm_num
  constructor <;>
  · simp only [get_next_reset_time, h1, h2]
    split <;> omega

/-- The cursor recurrence of the account loop: starting the cursor at
`j % poolSize`, the `k`-th assigned index is `(j + k) % poolSize`. -/
theorem cycle_proxy_indices_get (poolSize : Nat) :
    ∀ (n j k : Nat), k < n →
      (cycle_proxy_indices poolSize (j % poolSize) n).get? k =
        some ((j + k) % poolSize) := by
  intro n
  induction n with
  | zero => intro j k hk; omega
  | succ m ih =>
    intro j k hk
    cases k with
    | zero => simp [cycle_proxy_indices]
    | succ k' =>
      have hrot : (j % poolSize + 1) % poolSize = (j + 1) % poolSize :=
        Nat.mod_add_mod j poolSize 1
      have hadd : j + 1 + k' = j + (k' + 1) := by omega
      have := ih (j + 1) k' (by omega)
      rw [hadd] at this
      simpa [cycle_proxy_indices, hrot] using this

/-- C5: within one cycle, for a non-empty proxy pool and the cursor
starting at 0, the `k`-th account processed (0-based) is assigned the
proxy at index `k % poolSize`, regardless of how many accounts there
are. -/
theorem proxy_rotation (poolSize : Nat) (_hpool : 0 < poolSize)
    (numAccounts k : Nat) (hk : k < numAccounts) :
    (cycle_proxy_indices poolSize 0 numAccounts).get? k = some (k % poolSize) := by
  have := cycle_proxy_indices_get poolSize numAccounts 0 k hk
  simpa using this

/-- Witness for C5: pool size 3, five accounts, account 4 gets proxy 1. -/
theorem proxy_rotation_witness :
    (cycle_proxy_indices 3 0 5).get? 4 = some 1 :=
  proxy_rotation 3 (by decide) 5 4 (by decide)

/-- C6: `parse_proxy` maps `http://u:p@h:8080` to the dict
`{http: http://u:p@h:8080}` (scheme http, host h, port 8080, user u,
pass p); `https://h` defaults the port to 443 and `http://h` to 80; and
any input with no `://` separator yields `none`. -/
theorem parse_proxy_examples (s : String)
    (hnosep : (pySplit s "://").length = 1) :
    parse_proxy "http://u:p@h:8080" = some ("http", "http://u:p@h:8080") ∧
    parse_proxy "https://h" = some ("https", "https://h:443") ∧
    parse_proxy "http://h" = some ("http", "http://h:80") ∧
    parse_proxy s = none := by
  refine ⟨by decide, by decide, by decide, ?_⟩
  obtain ⟨x, hx⟩ : ∃ x, pySplit s "://" = [x] := by
    cases hlist : pySplit s "://" with
    | nil => rw [hlist] at hnosep; simp at hnosep
    | cons a t =>
      cases t with
      | nil => exact ⟨a, rfl⟩
      | cons b u => rw [hlist] at hnosep; simp at hnosep
  have h1 : py_split1 s "://" = [x] := by simp [py_split1, hx]
  have hsplit : parse_proxy_split s = none := by
    simp [parse_proxy_split, h1]
  simp [parse_proxy, hsplit]

/-- Witness for C6 at the separator-free input `hhh`. -/
theorem parse_proxy_examples_witness :
    parse_proxy "http://u:p@h:8080" = some ("http", "http://u:p@h:8080") ∧
    parse_proxy "https://h" = some ("https", "https://h:443") ∧
    parse_proxy "http://h" = some ("http", "http://h:80") ∧
    parse_proxy "hhh" = none :=
  parse_proxy_examples "hhh" (by decide)

/-- C7 counterexample: the input `http://user:@host:8080`, whose
credential section has an empty password, yields a usable proxy value
(`{http: http://host:8080}`) with the credentials silently dropped —
not `none` as the claim requires. -/
theorem parse_proxy_incomplete_creds_cex :
    parse_proxy "http://user:@host:8080" = some ("http", "http://host:8080") ∧
    parse_proxy "http://user:@host:8080" ≠ none := by
  decide

/-- C7 (amended): for every input, `parse_proxy` either fails (`none`) or
produces a proxy URL that carries both a non-empty username and a
non-empty password or carries no credential section at all — never a
partially-populated one.  "Carries both" is pinned down structurally:
the URL decomposes as `protocol://u:pw@host:port` where none of the
components contains `':'` or `'@'` (so the URL has exactly one `'@'`,
the userinfo before it is exactly `u:pw`, and `u`, `pw` are its
unambiguous username and password).  "Carries neither" is the absence
of any `'@'` in the URL.  But an input whose credential section is
incomplete — empty password in `http://user:@host:8080` — yields a
usable credential-free proxy (its URL contains no `'@'`), the
credentials being silently dropped rather than the input rejected. -/
theorem parse_proxy_both_or_neither :
    (∀ s protocol url, parse_proxy s = some (protocol, url) →
      (∃ u pw host port, u ≠ "" ∧ pw ≠ "" ∧
         url = protocol ++ "://" ++ u ++ ":" ++ pw ++ "@" ++ host ++ ":" ++ port ∧
         ':' ∉ protocol.data ∧ '@' ∉ protocol.data ∧
         ':' ∉ u.data ∧ '@' ∉ u.data ∧ ':' ∉ pw.data ∧ '@' ∉ pw.data ∧
         ':' ∉ host.data ∧ '@' ∉ host.data ∧ ':' ∉ port.data ∧ '@' ∉ port.data) ∨
      '@' ∉ url.data) ∧
    parse_proxy "http://user:@host:8080" = some ("http", "http://host:8080") ∧
    '@' ∉ ("http://host:8080" : String).data := by
  refine ⟨?_, by decide, by decide⟩
  intro s protocol url h
  unfold parse_proxy at h
  split at h
  · simp at h
  · split at h
    · simp at h
    · rename_i creds host_port hsp
      dsimp only [] at h
      split at h
      · simp at h
      · rename_i hp2 host port hhp
        simp only [Option.some.injEq, Prod.mk.injEq] at h
        obtain ⟨hproto, hurl⟩ := h
        obtain ⟨hhpfree, hcreds⟩ := parse_proxy_split_inv s creds host_port hsp
        obtain ⟨hhc, hpc, hha, hpa⟩ :=
          parse_proxy_hostport_inv (urlparse_scheme s) host_port host port hhp hhpfree
        obtain ⟨hsc, hsa⟩ := urlparse_scheme_free s
        subst hproto
        rcases hcreds with rfl | ⟨u, pw, rfl, huc, hpwc, hua, hpwa⟩
        · right
          rw [← hurl]
          exact at_free_plain _ host port hsa hha hpa
        · by_cases hc : u ≠ "" ∧ pw ≠ ""
          · left
            refine ⟨u, pw, host, port, hc.1, hc.2, ?_, hsc, hsa, huc, hua, hpwc, hpwa,
              hhc, hha, hpc, hpa⟩
            rw [← hurl]
            simp only [build_proxy_url]
            rw [if_pos hc]
          · right
            rw [← hurl]
            have hb : build_proxy_url (urlparse_scheme s) (some (u, pw)) host port =
                urlparse_scheme s ++ "://" ++ host ++ ":" ++ port := by
              simp only [build_proxy_url]
              rw [if_neg hc]
            rw [hb]
            exact at_free_plain _ host port hsa hha hpa

/-- Witness for C7's amended theorem at `http://u:p@h:8080`. -/
theorem parse_proxy_both_or_neither_witness :
    (∃ u pw host port, u ≠ "" ∧ pw ≠ "" ∧
       ("http://u:p@h:8080" : String) =
         "http" ++ "://" ++ u ++ ":" ++ pw ++ "@" ++ host ++ ":" ++ port ∧
       ':' ∉ ("http" : String).data ∧ '@' ∉ ("http" : String).data ∧
       ':' ∉ u.data ∧ '@' ∉ u.data ∧ ':' ∉ pw.data ∧ '@' ∉ pw.data ∧
       ':' ∉ host.data ∧ '@' ∉ host.data ∧ ':' ∉ port.data ∧ '@' ∉ port.data) ∨
    '@' ∉ ("http://u:p@h:8080" : String).data :=
  parse_proxy_both_or_neither.1 "http://u:p@h:8080" "http" "http://u:p@h:8080" (by decide)

/-- C8: when a 2xx response body is not parseable as JSON, `get_request`
returns the `None` sentinel immediately — one attempt, no sleeps, no
retry consumed — while `post_request` returns the raw response text
together with the cookies as a fallback payload. -/
theorem parse_fallback {J C : Type} (oracle : Nat → Attempt J C) (t : String) (ck : C)
    (h0 : oracle 0 = Attempt.success none t ck) :
    get_request 3 oracle 0 = { result := none, attempts := 1, sleeps := [] } ∧
    post_request 3 oracle 0 =
      { result := some (Sum.inr t, ck), attempts := 1, sleeps := [] } := by
  constructor <;> simp [get_request, post_request, h0]

/-- Witness for C8 at a concrete non-JSON first response. -/
theorem parse_fallback_witness :
    get_request 3 (fun _ => (Attempt.success none "raw-token" 7 : Attempt Nat Nat)) 0 =
      { result := none, attempts := 1, sleeps := [] } ∧
    post_request 3 (fun _ => (Attempt.success none "raw-token" 7 : Attempt Nat Nat)) 0 =
      { result := some (Sum.inr "raw-token", 7), attempts := 1, sleeps := [] } :=
  parse_fallback (fun _ => Attempt.success none "raw-token" 7) "raw-token" 7 rfl

/-- C9 counterexample: with an empty credential list (and a non-empty
proxy list) the process terminates during startup before any network
call — but the exit code is 0, not non-zero as the claim states. -/
theorem startup_guard_cex :
    (main_startup [] ["http://h:80"]).1 = [] ∧
    (main_startup [] ["http://h:80"]).2 = some 0 := by
  decide

/-- C9 (amended): an empty credential list or an empty proxy list at
startup terminates the process immediately, before any network call
(zero proxy probes issued), with exit code 0 — the same code 0 a manual
interrupt exits with. -/
theorem startup_guard (init_data_list proxy_list : List String)
    (h : init_data_list = [] ∨ proxy_list = []) :
    main_startup init_data_list proxy_list = ([], some 0) ∧
    interrupt_exit_code = 0 := by
  rcases h with h | h <;> simp [main_startup, interrupt_exit_code, h]

/-- Witness for C9's amended theorem at empty credentials. -/
theorem startup_guard_witness :
    main_startup [] ["http://h:80"] = ([], some 0) ∧ interrupt_exit_code = 0 :=
  startup_guard [] ["http://h:80"] (Or.inl rfl)

/-- C10 counterexample: two runs identical except for the referral-claim
response body — a JSON object in one, `post_request`'s raw-text
fallback in the other — issue different numbers of play calls: the
parsed claim is discarded and one play call follows (tickets = 1),
while the raw-text claim makes `claim_response.get` at bot.py line 237
raise `AttributeError`, caught at line 316, so the user-info fetch and
the play loop are skipped and zero play calls are issued. -/
theorem referral_claim_text_cex :
    (process_init_data_post_auth
      { referralStatus := some (Sum.inl { canClaim := some true }),
        referralClaim := some (Sum.inl { totalPoints := some 10, totalTickets := some 1 }),
        userInfo := some (Sum.inl { tickets := some 1, points := some 0 }),
        play := fun _ => some { points := some 3 } }).2.calls = 1 ∧
    (process_init_data_post_auth
      { referralStatus := some (Sum.inl { canClaim := some true }),
        referralClaim := some (Sum.inr "Referral claimed"),
        userInfo := some (Sum.inl { tickets := some 1, points := some 0 }),
        play := fun _ => some { points := some 3 } }).2.calls = 0 := by
  decide

/-- C10 (amended): the `(totalPoints, totalTickets)` of a parsed
referral-claim response are discarded by `process_init_data`, so two
runs that differ only in the referral-claim response issue the same
number of play calls provided neither claim response is a truthy
non-JSON-object body; a raw-text claim response instead raises at
bot.py line 237 and aborts the remaining steps via line 316 (zero play
calls), so the claim response can influence the play count only through
that error path, never through its values.  When the user-info fetch
yields no result, `get_user_info` returns `(0, 0)` and no play call is
made. -/
theorem referral_noninterference :
    (∀ e1 e2 : Env, e1.referralStatus = e2.referralStatus →
       e1.userInfo = e2.userInfo → e1.play = e2.play →
       (∀ t, e1.referralClaim ≠ some (Sum.inr t)) →
       (∀ t, e2.referralClaim ≠ some (Sum.inr t)) →
       (process_init_data_post_auth e1).2.calls =
         (process_init_data_post_auth e2).2.calls) ∧
    get_user_info none = Except.ok (0, Sum.inl 0) ∧
    (∀ e : Env, e.userInfo = none →
       (process_init_data_post_auth e).2.calls = 0) := by
  refine ⟨?_, rfl, ?_⟩
  · intro e1 e2 hrs hui hpl hc1 hc2
    unfold process_init_data_post_auth
    rw [hrs, hui, hpl]
    rcases hst : e2.referralStatus with _ | (rd | t)
    · simp [check_referral_status]
    · by_cases hb : rd.canClaim.getD false = true
      · simp only [check_referral_status, if_pos hb]
        rcases hc1e : e1.referralClaim with _ | (cr1 | t1) <;>
          rcases hc2e : e2.referralClaim with _ | (cr2 | t2) <;>
            first
            | exact absurd hc1e (hc1 _)
            | exact absurd hc2e (hc2 _)
            | rfl
      · simp only [check_referral_status, if_neg hb]
    · simp [check_referral_status]
  · intro e h
    unfold process_init_data_post_auth
    rcases hcr : check_referral_status e.referralStatus e.referralClaim with m | v
    · simp [hcr]
    · simp [hcr, h, get_user_info]

/-- Witness for C10's amended theorem at two environments differing only
in the (non-raw-text) referral-claim response. -/
theorem referral_noninterference_witness :
    (process_init_data_post_auth
      { referralStatus := some (Sum.inl { canClaim := some true }),
        referralClaim := some (Sum.inl { totalPoints := some 100, totalTickets := some 5 }),
        userInfo := some (Sum.inl { tickets := some 2, points := some 10 }),
        play := fun _ => some { points := some 1 } }).2.calls =
    (process_init_data_post_auth
      { referralStatus := some (Sum.inl { canClaim := some true }),
        referralClaim := none,
        userInfo := some (Sum.inl { tickets := some 2, points := some 10 }),
        play := fun _ => some { points := some 1 } }).2.calls :=
  referral_noninterference.1 _ _ rfl rfl rfl
    (fun _ h => Sum.noConfusion (Option.some.inj h))
    (fun _ h => Option.noConfusion h)

end Midas
